import Mathlib

/-!
Verification of the yaci extraction pipeline (package `extractor` in
`internal/extractor/live.go` and package `utils`) against its specification.

The Go code is shallowly embedded: external effects (gRPC responses, JSON
unmarshalling, transaction extraction, sink writes) are supplied as oracle
outcomes in an environment record, and each embedded function returns its
Go result together with the list of sink-write events it performed, so that
atomicity and "no write on error" properties can be stated.  Go `uint64`
arithmetic is modelled as `Nat` with explicit `% 2 ^ 64` where the code can
wrap, and Go `error` values as the inductive `Err` below, where `Err.wrap`
models `fmt.Errorf("...: %w", err)` and `Err.canceled` models
`context.Canceled`.
-/

namespace Yaci

/-- Modulus of Go `uint64` arithmetic. -/
def UINT64 : Nat := 2 ^ 64

/-- Go `error` values as produced by this code base: `context.Canceled`,
a plain error message, or `fmt.Errorf("<msg>: %w", e)`. -/
inductive Err where
  | canceled : Err
  | msg : String → Err
  | wrap : String → Err → Err
deriving Repr, DecidableEq

/-- `errors.Is(err, context.Canceled)`: the wrap chain ends in `canceled`. -/
def Err.isCanceled : Err → Bool
  | .canceled => true
  | .msg _ => false
  | .wrap _ e => e.isCanceled

/-- `err.Error()`: the message text, with `fmt.Errorf("<msg>: %w", e)`
rendering as `"<msg>: " ++ e.Error()`. -/
def Err.errorText : Err → String
  | .canceled => "context canceled"
  | .msg s => s
  | .wrap s e => s ++ ": " ++ e.errorText

/-- `models.Block` (block payload bytes kept as a string). -/
structure Block where
  ID : Nat
  Data : String
deriving Repr, DecidableEq

/-- `models.Transaction`. -/
structure Transaction where
  Hash : String
  Data : String
deriving Repr, DecidableEq

/-- `models.BlockResults`. -/
structure BlockResults where
  Height : Nat
  Data : String
deriving Repr, DecidableEq

/-! ## `utils.parseLowestHeightFromError` (`internal/utils`)

The Go function lower-cases the error message with `strings.ToLower`,
matches the regular expression `lowest height is (\d+)` (leftmost match,
greedy digit run) and parses the captured digits with
`strconv.ParseUint(_, 10, 64)`, returning 0 when there is no match or the
number does not fit in 64 bits.  The pattern consists of ASCII characters
only, so lower-casing is modelled on the ASCII range. -/

/-- ASCII case folding as performed by `strings.ToLower` on the ASCII range. -/
def asciiToLower (c : Char) : Char :=
  if 'A' ≤ c && c ≤ 'Z' then Char.ofNat (c.toNat + 32) else c

/-- `\d` of the Go regexp. -/
def isDigitChar (c : Char) : Bool := '0' ≤ c && c ≤ '9'

/-- The literal part of the regexp `lowest height is (\d+)`. -/
def lowPattern : List Char := "lowest height is ".data

/-- If `l` begins with pattern `p`, the remainder after it. -/
def stripPat : List Char → List Char → Option (List Char)
  | [], rest => some rest
  | _ :: _, [] => none
  | p :: ps, c :: cs => if p == c then stripPat ps cs else none

/-- Greedy digit run: longest all-digit prefix, as captured by `(\d+)`. -/
def digitRun : List Char → List Char
  | [] => []
  | c :: cs => if isDigitChar c then c :: digitRun cs else []

/-- Match of `lowest height is (\d+)` anchored at the head of `l`:
the captured digit run, when the literal part is followed by ≥ 1 digit. -/
def patAt (l : List Char) : Option (List Char) :=
  match stripPat lowPattern l with
  | none => none
  | some rest =>
    match digitRun rest with
    | [] => none
    | d :: ds => some (d :: ds)

/-- Leftmost match of the regexp in `l` (`regexp.FindStringSubmatch`):
the captured digit run of the first position where the pattern matches. -/
def findPatMatch : List Char → Option (List Char)
  | [] => none
  | c :: cs =>
    match patAt (c :: cs) with
    | some ds => some ds
    | none => findPatMatch cs

/-- Decimal value of a digit run (`strconv.ParseUint` base 10, no width check). -/
def digitsVal : List Char → Nat → Nat
  | [], acc => acc
  | c :: cs, acc => digitsVal cs (acc * 10 + (c.toNat - 48))

/-- `utils.parseLowestHeightFromError`: extract the lowest height from a
pruned-node error message; 0 when the pattern is absent or the number
overflows `uint64` (in which case `ParseUint` errors and Go returns 0). -/
def parseLowestHeightFromError (errMsg : String) : Nat :=
  match findPatMatch (errMsg.data.map asciiToLower) with
  | none => 0
  | some ds =>
    let n := digitsVal ds 0
    if n < UINT64 then n else 0

/-- Spec-side notion of "the string contains the pattern
`lowest height is <digits>` (case-insensitively)": some suffix of the
lower-cased character list starts with the literal pattern followed by a
digit.  Stated independently of the scan `findPatMatch` performs. -/
def listStartsWith : List Char → List Char → Bool
  | [], _ => true
  | _ :: _, [] => false
  | p :: ps, c :: cs => p == c && listStartsWith ps cs

/-- Does the pattern (literal part plus at least one digit) sit at the head? -/
def hasPatHere (l : List Char) : Bool :=
  listStartsWith lowPattern l &&
    match l.drop lowPattern.length with
    | [] => false
    | c :: _ => isDigitChar c

/-- The case-insensitive containment predicate of the claim. -/
def containsLowestHeightPattern (s : String) : Bool :=
  (s.data.map asciiToLower).tails.any hasPatHere

/-! ## `utils.GetEarliestBlockHeight` (`internal/utils`)

The function issues up to two `GetGRPCResponse` calls on the
`GetBlockByHeight` method with params `{"height":"1"}`: first with retry
budget 1, then (only when the first fails and no lowest height can be
parsed from its error text) with the full `maxRetries` budget.  The two
call outcomes are oracle inputs; the calls actually issued are recorded,
with their retry budgets, so the call discipline can be stated.  Go
returns the pair `(uint64, error)`, modelled as `Nat × Option Err`. -/

/-- Outcomes of the two possible `GetGRPCResponse` invocations. -/
structure EarliestEnv where
  probeOnce : Except Err String
  probeFull : Except Err String

/-- A recorded `GetGRPCResponse` call on the get-block-by-height method:
retry budget and JSON params. -/
structure EarliestCall where
  retries : Nat
  params : String
deriving Repr, DecidableEq

/-- The literal params `{"height":"1"}` of the probe. -/
def earliestParams : String := "\x7b\"height\":\"1\"\x7d"

/-- `utils.GetEarliestBlockHeight`, returning Go's `(uint64, error)` pair
together with the list of gRPC calls issued. -/
def GetEarliestBlockHeight (env : EarliestEnv) (maxRetries : Nat) :
    (Nat × Option Err) × List EarliestCall :=
  match env.probeOnce with
  | .ok _ => ((1, none), [⟨1, earliestParams⟩])
  | .error e =>
    let lowestHeight := parseLowestHeightFromError e.errorText
    if lowestHeight > 0 then
      ((lowestHeight, none), [⟨1, earliestParams⟩])
    else
      match env.probeFull with
      | .ok _ => ((1, none), [⟨1, earliestParams⟩, ⟨maxRetries, earliestParams⟩])
      | .error e2 =>
        ((0, some (.wrap "failed to determine earliest block height" e2)),
          [⟨1, earliestParams⟩, ⟨maxRetries, earliestParams⟩])

/-! ## Block Fetcher (`internal/extractor/live.go`)

`processSingleBlockWithRetry` and `processSingleBlockWithResultsAndRetry`.
The outcomes of the external steps — the gRPC block fetch,
`json.Unmarshal`, `extractTransactions`, and the two sink writes — are
oracle inputs.  Each function returns its Go error result together with
the list of sink calls it performed (a failing sink call is still a
performed call). -/

/-- A call on the `output.OutputHandler` sink. -/
inductive WriteEvent where
  | writeBlockWithTransactions (block : Block) (txs : List Transaction)
  | writeBlockResults (results : BlockResults)
deriving Repr, DecidableEq

/-- Oracle outcomes of the external steps of one block's processing. -/
structure FetchEnv where
  /-- `utils.GetGRPCResponse` on `blockMethodFullName`: the block JSON bytes. -/
  grpcBlockResponse : Except Err String
  /-- `json.Unmarshal(blockJsonBytes, &data)` outcome on those bytes. -/
  unmarshalBlock : String → Except Err Unit
  /-- `extractTransactions(gRPCClient, data, maxRetries)` outcome. -/
  extractTxsResult : Except Err (List Transaction)
  /-- Sink outcome of `WriteBlockWithTransactions`. -/
  writeBlockTxsResult : Except Err Unit
  /-- `utils.GetGRPCResponse` on `blockResultsMethodFullName`. -/
  grpcBlockResultsResponse : Except Err String
  /-- Sink outcome of `WriteBlockResults`. -/
  writeBlockResultsOutcome : Except Err Unit

/-- `processSingleBlockWithRetry`: fetch the block, unmarshal it, extract
its transactions, then hand block and transactions to the sink in one
`WriteBlockWithTransactions` call. -/
def processSingleBlockWithRetry (env : FetchEnv) (blockHeight : Nat) :
    Except Err Unit × List WriteEvent :=
  match env.grpcBlockResponse with
  | .error e => (.error (.wrap "failed to get block data" e), [])
  | .ok blockJsonBytes =>
    match env.unmarshalBlock blockJsonBytes with
    | .error e => (.error (.wrap "failed to unmarshal block JSON" e), [])
    | .ok _ =>
      match env.extractTxsResult with
      | .error e => (.error (.wrap "failed to extract transactions from block" e), [])
      | .ok transactions =>
        let block : Block := ⟨blockHeight, blockJsonBytes⟩
        let ev := WriteEvent.writeBlockWithTransactions block transactions
        match env.writeBlockTxsResult with
        | .error e => (.error (.wrap "failed to write block with transactions" e), [ev])
        | .ok _ => (.ok (), [ev])

/-- `fetchBlockResults`: fetch the block results message. -/
def fetchBlockResults (env : FetchEnv) (blockHeight : Nat) :
    Except Err BlockResults :=
  match env.grpcBlockResultsResponse with
  | .error e => .error (.wrap "failed to get block results" e)
  | .ok blockResultsBytes => .ok ⟨blockHeight, blockResultsBytes⟩

/-- `processSingleBlockWithResultsAndRetry`: process the block and its
transactions; then fetch block results — a fetch failure is logged and
the function returns `nil` — and, when the fetch succeeded, write them,
propagating a write failure. -/
def processSingleBlockWithResultsAndRetry (env : FetchEnv) (blockHeight : Nat) :
    Except Err Unit × List WriteEvent :=
  match processSingleBlockWithRetry env blockHeight with
  | (.error e, evs) => (.error e, evs)
  | (.ok _, evs) =>
    match fetchBlockResults env blockHeight with
    | .error _ => (.ok (), evs)
    | .ok blockResults =>
      match env.writeBlockResultsOutcome with
      | .error e =>
        (.error (.wrap "failed to write block results" e),
          evs ++ [.writeBlockResults blockResults])
      | .ok _ => (.ok (), evs ++ [.writeBlockResults blockResults])

/-! ## Parallel Driver (`processBlocks`)

`processBlocks` runs one task per height in an `errgroup` bound to a
context derived from the client context, and has two return paths:

* at the top of the scheduling loop, `if ctx.Err() != nil` returns the
  plain `ctx.Err()` value — `context.Canceled`, unwrapped — whenever the
  derived context is observed cancelled (by parent cancellation or by an
  earlier task failure) while later heights are still being scheduled,
  without calling `eg.Wait`;
* once every height has been scheduled, `eg.Wait()` returns the first
  non-nil task-closure result, which `processBlocks` wraps as
  `error while fetching blocks`, and `nil` when every task succeeded.

Whether the loop-top check trips is timing-dependent, so it is an oracle
flag `ctxDoneDuringSched`.  The per-height processing outcome is an
oracle input too: the model takes the list of `(height, outcome)` pairs
in the order the `errgroup` observes task completions (completion order
across heights is unspecified, so the list order is universally
quantified in the theorems).  The body of each task transforms its
outcome exactly as the Go closure does. -/

/-- The error post-processing of the task closure in `processBlocks`:
a non-`Cancelled` error is returned as is; an error chain containing
`context.Canceled` is wrapped as `failed to process block <h>`. -/
def taskErrOf (blockHeight : Nat) (e : Err) : Err :=
  if !e.isCanceled then e
  else .wrap ("failed to process block " ++ toString blockHeight) e

/-- The result the task closure in `processBlocks` hands to the
`errgroup` for one height's processing outcome. -/
def blockTaskResult (blockHeight : Nat) (r : Except Err Unit) : Except Err Unit :=
  match r with
  | .ok _ => .ok ()
  | .error e => .error (taskErrOf blockHeight e)

/-- First error of a list of task results (`errgroup.Wait`). -/
def firstTaskError : List (Except Err Unit) → Option Err
  | [] => none
  | .ok _ :: rest => firstTaskError rest
  | .error e :: _ => some e

/-- `errgroup.WithContext` cancels the derived context the first time a
task returns a non-nil error, aborting the peer tasks. -/
def groupCtxCanceled (tasks : List (Nat × Except Err Unit)) : Bool :=
  tasks.any fun p =>
    match blockTaskResult p.1 p.2 with
    | .ok _ => false
    | .error _ => true

/-- `processBlocks`: when the derived context is observed cancelled at a
loop-top during scheduling (`ctxDoneDuringSched`), the plain
`context.Canceled` of `ctx.Err()` is returned without waiting; otherwise
the first non-nil task-closure result of `eg.Wait` is surfaced wrapped as
`error while fetching blocks`, and `nil` when every task succeeded. -/
def processBlocks (ctxDoneDuringSched : Bool)
    (tasks : List (Nat × Except Err Unit)) : Except Err Unit :=
  if ctxDoneDuringSched then .error .canceled
  else
    match firstTaskError (tasks.map fun p => blockTaskResult p.1 p.2) with
    | none => .ok ()
    | some e => .error (.wrap "error while fetching blocks" e)

/-! ## Gap Repairer (`processMissingBlocks`)

`processMissingBlocks` asks the sink for the missing block ids and then
processes each sequentially — with `processSingleBlockWithResultsAndRetry`
or `processSingleBlockWithRetry`, both called with `cfg.MaxRetries` —
stopping at the first failure.  The per-height outcome is an oracle; the
model records the heights fetched, in order, with the retry budget
passed. -/

/-- The sequential loop over the missing ids: stop at the first failure,
recording each attempted `(height, maxRetries)` fetch. -/
def processMissingLoop (outcome : Nat → Except Err Unit) (maxRetries : Nat) :
    List Nat → Except Err Unit × List (Nat × Nat)
  | [] => (.ok (), [])
  | blockID :: rest =>
    match outcome blockID with
    | .error e =>
      (.error (.wrap ("failed to process missing block " ++ toString blockID) e),
        [(blockID, maxRetries)])
    | .ok _ =>
      let (r, fetched) := processMissingLoop outcome maxRetries rest
      (r, (blockID, maxRetries) :: fetched)

/-- `processMissingBlocks`: query the sink for missing ids, then run the
sequential loop. -/
def processMissingBlocks (missingBlockIds : Except Err (List Nat))
    (outcome : Nat → Except Err Unit) (maxRetries : Nat) :
    Except Err Unit × List (Nat × Nat) :=
  match missingBlockIds with
  | .error e => (.error (.wrap "failed to get missing block IDs" e), [])
  | .ok ids => processMissingLoop outcome maxRetries ids

/-! ## Live Tailer (`extractLiveBlocksAndTransactions`)

The tailer keeps `currentHeight`, initialised to the `uint64` value
`start - 1` (wrapping), and loops: a `select` that returns `nil` when the
context is cancelled, else the latest-height probe, a conditional drive of
`[currentHeight+1, latest]`, and a plain `time.Sleep` of
`cfg.BlockTime` seconds.  `time.Sleep` takes no context: it always sleeps
the full interval.  Each loop iteration consumes one `TailEvent`
describing the external world (whether the context was cancelled when the
`select` ran, and the probe/drive outcomes); the run emits a trace of the
observable actions, where `slept d` records an uninterrupted sleep of `d`
seconds. -/

/-- External input of one iteration of the tailer loop. -/
inductive TailEvent where
  /-- `gRPCClient.Ctx.Done()` is ready when the `select` executes. -/
  | cancelBeforeIter : TailEvent
  /-- Outcomes of `GetLatestBlockHeightWithRetry` and — consulted only
  when the drive happens — of `extractBlocksAndTransactions`. -/
  | poll (latestResult : Except Err Nat) (driveResult : Except Err Unit) : TailEvent

/-- Observable action of the tailer. -/
inductive TailTrace where
  | polled : TailTrace
  | drove (startHeight stopHeight : Nat) : TailTrace
  | slept (seconds : Nat) : TailTrace
  | observedCancel : TailTrace
deriving Repr, DecidableEq

/-- One iteration of the tailer loop: its trace, and either a return value
(`Sum.inl`) or the next `currentHeight` (`Sum.inr`). -/
def tailerIter (blockTime currentHeight : Nat) (ev : TailEvent) :
    List TailTrace × (Except Err Unit ⊕ Nat) :=
  match ev with
  | .cancelBeforeIter => ([.observedCancel], .inl (.ok ()))
  | .poll latestResult driveResult =>
    match latestResult with
    | .error e =>
      ([.polled], .inl (.error (.wrap "failed to get latest block height" e)))
    | .ok latestHeight =>
      if latestHeight > currentHeight then
        match driveResult with
        | .error e =>
          ([.polled, .drove ((currentHeight + 1) % UINT64) latestHeight],
            .inl (.error (.wrap "failed to process blocks and transactions" e)))
        | .ok _ =>
          ([.polled, .drove ((currentHeight + 1) % UINT64) latestHeight,
              .slept blockTime],
            .inr latestHeight)
      else
        ([.polled, .slept blockTime], .inr currentHeight)

/-- The tailer loop run on a finite prefix of external inputs: the trace
and, when the loop returned within the prefix, its return value. -/
def tailerRun (blockTime : Nat) (currentHeight : Nat) :
    List TailEvent → List TailTrace × Option (Except Err Unit)
  | [] => ([], none)
  | ev :: rest =>
    match tailerIter blockTime currentHeight ev with
    | (tr, .inl r) => (tr, some r)
    | (tr, .inr next) =>
      let (tr2, r) := tailerRun blockTime next rest
      (tr ++ tr2, r)

/-- `extractLiveBlocksAndTransactions`: the loop started with
`currentHeight := start - 1` in `uint64` arithmetic. -/
def extractLiveBlocksAndTransactions (blockTime start : Nat)
    (evs : List TailEvent) : List TailTrace × Option (Except Err Unit) :=
  tailerRun blockTime ((start + (UINT64 - 1)) % UINT64) evs

/-! ## Lemmas on the lowest-height parser -/

theorem stripPat_eq_some {p l rest : List Char} (h : stripPat p l = some rest) :
    listStartsWith p l = true ∧ rest = l.drop p.length := by
  induction p generalizing l with
  | nil =>
    simp only [stripPat, Option.some.injEq] at h
    simp [listStartsWith, h]
  | cons c cs ih =>
    cases l with
    | nil => simp [stripPat] at h
    | cons d ds =>
      simp only [stripPat] at h
      by_cases hc : c == d
      · simp only [hc, if_true] at h
        obtain ⟨h1, h2⟩ := ih h
        simp [listStartsWith, hc, h1, h2]
      · simp [hc] at h

theorem digitRun_cons {l : List Char} {d : Char} {ds : List Char}
    (h : digitRun l = d :: ds) :
    ∃ rest, l = d :: rest ∧ isDigitChar d = true := by
  cases l with
  | nil => simp [digitRun] at h
  | cons c cs =>
    simp only [digitRun] at h
    by_cases hc : isDigitChar c
    · simp only [hc, if_true, List.cons.injEq] at h
      exact ⟨cs, by simp [h.1], by rw [← h.1]; exact hc⟩
    · simp [hc] at h

theorem patAt_some_hasPatHere {l : List Char} {ds : List Char}
    (h : patAt l = some ds) : hasPatHere l = true := by
  unfold patAt at h
  cases hs : stripPat lowPattern l with
  | none => simp [hs] at h
  | some rest =>
    simp only [hs] at h
    cases hd : digitRun rest with
    | nil => simp [hd] at h
    | cons d ds' =>
      obtain ⟨h1, h2⟩ := stripPat_eq_some hs
      obtain ⟨rest', hr, hdig⟩ := digitRun_cons hd
      unfold hasPatHere
      rw [h1, ← h2, hr]
      simp [hdig]

theorem findPatMatch_eq_none {l : List Char}
    (h : l.tails.any hasPatHere = false) : findPatMatch l = none := by
  induction l with
  | nil => rfl
  | cons c cs ih =>
    rw [List.tails_cons, List.any_cons, Bool.or_eq_false_iff] at h
    unfold findPatMatch
    cases hp : patAt (c :: cs) with
    | some ds => exact absurd (patAt_some_hasPatHere hp) (by simp [h.1])
    | none => exact ih h.2

/-- C8: `parseLowestHeightFromError` applied to the string
`"height 1 is not available, lowest height is 28566001"` returns
28566001, and applied to any string that does not contain the pattern
`lowest height is <digits>` (matched case-insensitively) it returns 0. -/
theorem parseLowestHeightFromError_spec :
    parseLowestHeightFromError
        "height 1 is not available, lowest height is 28566001" = 28566001 ∧
    ∀ s : String, containsLowestHeightPattern s = false →
      parseLowestHeightFromError s = 0 := by
  constructor
  · decide
  · intro s hs
    unfold containsLowestHeightPattern at hs
    unfold parseLowestHeightFromError
    rw [findPatMatch_eq_none hs]

/-- Witness for `parseLowestHeightFromError_spec` at the concrete string
`"no lowest marker in this text"`. -/
theorem parseLowestHeightFromError_spec_witness :
    containsLowestHeightPattern "no lowest marker in this text" = false ∧
    parseLowestHeightFromError "no lowest marker in this text" = 0 :=
  ⟨by decide,
    parseLowestHeightFromError_spec.2 "no lowest marker in this text" (by decide)⟩

/-! ## Theorems on the earliest-height probe -/

/-- C5: `GetEarliestBlockHeight` first probes get-block-by-height with
height 1 and a single retry; on success it returns 1; on failure it
parses `lowest height is <digits>` from the error text and returns the
parsed number when positive; otherwise it issues the probe again with the
full retry budget, returning 1 on success and an error wrapping the
failure after repeated failure. -/
theorem GetEarliestBlockHeight_spec (env : EarliestEnv) (maxRetries : Nat) :
    ((GetEarliestBlockHeight env maxRetries).2.head? =
      some ⟨1, earliestParams⟩) ∧
    (∀ s, env.probeOnce = .ok s →
      GetEarliestBlockHeight env maxRetries =
        ((1, none), [⟨1, earliestParams⟩])) ∧
    (∀ e, env.probeOnce = .error e →
      0 < parseLowestHeightFromError e.errorText →
      GetEarliestBlockHeight env maxRetries =
        ((parseLowestHeightFromError e.errorText, none),
          [⟨1, earliestParams⟩])) ∧
    (∀ e s, env.probeOnce = .error e →
      parseLowestHeightFromError e.errorText = 0 →
      env.probeFull = .ok s →
      GetEarliestBlockHeight env maxRetries =
        ((1, none), [⟨1, earliestParams⟩, ⟨maxRetries, earliestParams⟩])) ∧
    (∀ e e2, env.probeOnce = .error e →
      parseLowestHeightFromError e.errorText = 0 →
      env.probeFull = .error e2 →
      GetEarliestBlockHeight env maxRetries =
        ((0, some (.wrap "failed to determine earliest block height" e2)),
          [⟨1, earliestParams⟩, ⟨maxRetries, earliestParams⟩])) := by
  refine ⟨?_, ?_, ?_, ?_, ?_⟩
  · unfold GetEarliestBlockHeight
    cases h1 : env.probeOnce with
    | ok s => rfl
    | error e =>
      by_cases hp : parseLowestHeightFromError e.errorText > 0
      · simp [hp]
      · cases h2 : env.probeFull <;> simp [hp, h2]
  · intro s h1
    unfold GetEarliestBlockHeight
    rw [h1]
  · intro e h1 hp
    unfold GetEarliestBlockHeight
    rw [h1]
    simp [hp]
  · intro e s h1 hp h2
    unfold GetEarliestBlockHeight
    rw [h1]
    simp [hp, h2]
  · intro e e2 h1 hp h2
    unfold GetEarliestBlockHeight
    rw [h1]
    simp [hp, h2]

/-- Witness for `GetEarliestBlockHeight_spec`: an archive node whose
single-retry probe succeeds yields height 1 from one call. -/
theorem GetEarliestBlockHeight_spec_witness :
    GetEarliestBlockHeight ⟨.ok "blockdata", .ok "blockdata"⟩ 3 =
      ((1, none), [⟨1, earliestParams⟩]) :=
  (GetEarliestBlockHeight_spec ⟨.ok "blockdata", .ok "blockdata"⟩ 3).2.1
    "blockdata" rfl

/-- C10: whenever `GetEarliestBlockHeight` returns without an error the
height is at least 1, and it returns 0 only together with a non-nil
error. -/
theorem GetEarliestBlockHeight_pos (env : EarliestEnv) (maxRetries : Nat) :
    ((GetEarliestBlockHeight env maxRetries).1.2 = none →
      1 ≤ (GetEarliestBlockHeight env maxRetries).1.1) ∧
    ((GetEarliestBlockHeight env maxRetries).1.1 = 0 →
      (GetEarliestBlockHeight env maxRetries).1.2 ≠ none) := by
  unfold GetEarliestBlockHeight
  cases h1 : env.probeOnce with
  | ok s => exact ⟨fun _ => le_refl 1, fun h => by simp at h⟩
  | error e =>
    by_cases hp : parseLowestHeightFromError e.errorText > 0
    · simp only [hp, if_true]
      exact ⟨fun _ => hp, fun h => absurd h (by omega)⟩
    · simp only [hp, if_false]
      cases h2 : env.probeFull with
      | ok s => exact ⟨fun _ => le_refl 1, fun h => by simp at h⟩
      | error e2 => exact ⟨fun h => by simp at h, fun _ => by simp⟩

/-- Witness for `GetEarliestBlockHeight_pos` at a pruned-node error whose
text carries `lowest height is 50`. -/
theorem GetEarliestBlockHeight_pos_witness :
    1 ≤ (GetEarliestBlockHeight
      ⟨.error (.msg "height 1 is not available, lowest height is 50"),
        .error (.msg "still failing")⟩ 3).1.1 :=
  (GetEarliestBlockHeight_pos
    ⟨.error (.msg "height 1 is not available, lowest height is 50"),
      .error (.msg "still failing")⟩ 3).1 (by decide)

/-! ## Theorems on the Block Fetcher -/

/-- C2: `processSingleBlockWithRetry` hands the block row and all of its
extracted transactions to the sink in one `WriteBlockWithTransactions`
call, and performs no sink write of any kind when the block fetch, the
JSON unmarshalling or the transaction extraction fails. -/
theorem processSingleBlockWithRetry_spec (env : FetchEnv) (blockHeight : Nat) :
    (∀ e, env.grpcBlockResponse = .error e →
      processSingleBlockWithRetry env blockHeight =
        (.error (.wrap "failed to get block data" e), [])) ∧
    (∀ bytes e, env.grpcBlockResponse = .ok bytes →
      env.unmarshalBlock bytes = .error e →
      processSingleBlockWithRetry env blockHeight =
        (.error (.wrap "failed to unmarshal block JSON" e), [])) ∧
    (∀ bytes e, env.grpcBlockResponse = .ok bytes →
      env.unmarshalBlock bytes = .ok () →
      env.extractTxsResult = .error e →
      processSingleBlockWithRetry env blockHeight =
        (.error (.wrap "failed to extract transactions from block" e), [])) ∧
    (∀ bytes txs, env.grpcBlockResponse = .ok bytes →
      env.unmarshalBlock bytes = .ok () →
      env.extractTxsResult = .ok txs →
      (processSingleBlockWithRetry env blockHeight).2 =
        [.writeBlockWithTransactions ⟨blockHeight, bytes⟩ txs]) := by
  refine ⟨?_, ?_, ?_, ?_⟩
  · intro e h1
    simp only [processSingleBlockWithRetry, h1]
  · intro bytes e h1 h2
    simp only [processSingleBlockWithRetry, h1, h2]
  · intro bytes e h1 h2 h3
    simp only [processSingleBlockWithRetry, h1, h2, h3]
  · intro bytes txs h1 h2 h3
    simp only [processSingleBlockWithRetry, h1, h2, h3]
    cases h4 : env.writeBlockTxsResult <;> simp [h4]

/-- Witness for `processSingleBlockWithRetry_spec`: a fully successful
environment performs the single atomic write of block 12 with its two
transactions. -/
theorem processSingleBlockWithRetry_spec_witness :
    (processSingleBlockWithRetry
      ⟨.ok "blockbytes", fun _ => .ok (),
        .ok [⟨"aa", "tx1"⟩, ⟨"bb", "tx2"⟩], .ok (), .ok "results", .ok ()⟩
      12).2 =
      [.writeBlockWithTransactions ⟨12, "blockbytes"⟩
        [⟨"aa", "tx1"⟩, ⟨"bb", "tx2"⟩]] :=
  (processSingleBlockWithRetry_spec
    ⟨.ok "blockbytes", fun _ => .ok (),
      .ok [⟨"aa", "tx1"⟩, ⟨"bb", "tx2"⟩], .ok (), .ok "results", .ok ()⟩
    12).2.2.2 "blockbytes" [⟨"aa", "tx1"⟩, ⟨"bb", "tx2"⟩] rfl rfl rfl

/-- An environment where the block and its transactions are written
successfully, the block-results fetch succeeds, and the block-results
sink write fails. -/
def resultsWriteFailEnv : FetchEnv :=
  ⟨.ok "blockbytes", fun _ => .ok (), .ok [], .ok (),
    .ok "resultsbytes", .error (.msg "sink write failed")⟩

/-- Counterexample to C3 as stated: with the block and transactions
written successfully, an error in the block-results *sink write* is not
swallowed — `processSingleBlockWithResultsAndRetry` returns it, so not
every error of the block-results sub-step yields success. -/
theorem processSingleBlockWithResults_writeFail_cex :
    (processSingleBlockWithRetry resultsWriteFailEnv 7).1 = .ok () ∧
    (processSingleBlockWithResultsAndRetry resultsWriteFailEnv 7).1 =
      .error (.wrap "failed to write block results" (.msg "sink write failed")) ∧
    (processSingleBlockWithResultsAndRetry resultsWriteFailEnv 7).1 ≠ .ok () := by
  refine ⟨rfl, rfl, ?_⟩
  intro h
  exact Except.noConfusion h

/-- C3 (amended): when the block and its transactions were written
successfully, a failure of the block-results *fetch* is logged and
swallowed (the function returns success with the sink unchanged), while a
failure of the block-results *sink write* propagates as an error. -/
theorem processSingleBlockWithResults_spec (env : FetchEnv) (blockHeight : Nat)
    (evs : List WriteEvent)
    (hok : processSingleBlockWithRetry env blockHeight = (.ok (), evs)) :
    (∀ e, env.grpcBlockResultsResponse = .error e →
      processSingleBlockWithResultsAndRetry env blockHeight = (.ok (), evs)) ∧
    (∀ bytes e, env.grpcBlockResultsResponse = .ok bytes →
      env.writeBlockResultsOutcome = .error e →
      processSingleBlockWithResultsAndRetry env blockHeight =
        (.error (.wrap "failed to write block results" e),
          evs ++ [.writeBlockResults ⟨blockHeight, bytes⟩])) ∧
    (∀ bytes, env.grpcBlockResultsResponse = .ok bytes →
      env.writeBlockResultsOutcome = .ok () →
      processSingleBlockWithResultsAndRetry env blockHeight =
        (.ok (), evs ++ [.writeBlockResults ⟨blockHeight, bytes⟩])) := by
  refine ⟨?_, ?_, ?_⟩
  · intro e h1
    unfold processSingleBlockWithResultsAndRetry
    rw [hok]
    unfold fetchBlockResults
    rw [h1]
  · intro bytes e h1 h2
    unfold processSingleBlockWithResultsAndRetry
    rw [hok]
    unfold fetchBlockResults
    rw [h1, h2]
  · intro bytes h1 h2
    unfold processSingleBlockWithResultsAndRetry
    rw [hok]
    unfold fetchBlockResults
    rw [h1, h2]

/-- Witness for `processSingleBlockWithResults_spec`: a failing
block-results fetch is swallowed and the block's own write stands. -/
theorem processSingleBlockWithResults_spec_witness :
    processSingleBlockWithResultsAndRetry
      ⟨.ok "blockbytes", fun _ => .ok (), .ok [], .ok (),
        .error (.msg "Unimplemented"), .ok ()⟩ 9 =
      (.ok (), [.writeBlockWithTransactions ⟨9, "blockbytes"⟩ []]) :=
  (processSingleBlockWithResults_spec
    ⟨.ok "blockbytes", fun _ => .ok (), .ok [], .ok (),
      .error (.msg "Unimplemented"), .ok ()⟩ 9
    [.writeBlockWithTransactions ⟨9, "blockbytes"⟩ []] rfl).1
    (.msg "Unimplemented") rfl

/-! ## Theorems on the Parallel Driver -/

theorem blockTaskResult_ok_iff (blockHeight : Nat) (r : Except Err Unit) :
    blockTaskResult blockHeight r = .ok () ↔ r = .ok () := by
  cases r with
  | ok u => cases u; simp [blockTaskResult]
  | error e => simp [blockTaskResult]

theorem firstTaskError_eq_none_iff (l : List (Except Err Unit)) :
    firstTaskError l = none ↔ ∀ x ∈ l, x = .ok () := by
  induction l with
  | nil => simp [firstTaskError]
  | cons x rest ih =>
    cases x with
    | ok u => cases u; simp [firstTaskError, ih]
    | error e => simp [firstTaskError]

theorem firstTaskError_append_ok (l1 l2 : List (Except Err Unit))
    (h : ∀ x ∈ l1, x = .ok ()) :
    firstTaskError (l1 ++ l2) = firstTaskError l2 := by
  induction l1 with
  | nil => rfl
  | cons x rest ih =>
    have hx := h x (by simp)
    subst hx
    simp only [List.cons_append, firstTaskError]
    exact ih fun y hy => h y (by simp [hy])

/-- Counterexample to C1 as stated: a run whose only task failure is
`context.Canceled` does not surface a clean shutdown — here a
single-height range that schedules without tripping the loop-top check,
so `eg.Wait` is reached, and `processBlocks` returns a non-nil wrapped
error. -/
theorem processBlocks_canceled_cex :
    processBlocks false [(7, .error .canceled)] =
      .error (.wrap "error while fetching blocks"
        (.wrap "failed to process block 7" .canceled)) ∧
    processBlocks false [(7, .error .canceled)] ≠ .ok () := by
  refine ⟨rfl, ?_⟩
  intro h
  exact Except.noConfusion h

/-- C1 (amended): any task failure — `Cancelled` included — cancels the
errgroup context (aborting the peers), and the driver never surfaces a
failure as a clean shutdown: it returns without error exactly when no
loop-top check observed the context cancelled during scheduling and every
task outcome succeeded.  The surfaced error depends on the return path:
when scheduling completed, the first failing task's error is wrapped as
`error while fetching blocks` (a `Cancelled` task error additionally
wrapped with its block height); when cancellation was observed at a
loop-top while still scheduling, the plain `context.Canceled` of
`ctx.Err()` is returned instead, without the wrap. -/
theorem processBlocks_spec (ctxDoneDuringSched : Bool)
    (tasks : List (Nat × Except Err Unit)) :
    (processBlocks ctxDoneDuringSched tasks = .ok () ↔
      ctxDoneDuringSched = false ∧ ∀ p ∈ tasks, p.2 = .ok ()) ∧
    (groupCtxCanceled tasks = true ↔ ∃ p ∈ tasks, p.2 ≠ .ok ()) ∧
    (processBlocks true tasks = .error .canceled) ∧
    (∀ pre blockHeight e post,
      tasks = pre ++ (blockHeight, .error e) :: post →
      (∀ p ∈ pre, p.2 = .ok ()) →
      processBlocks false tasks =
        .error (.wrap "error while fetching blocks" (taskErrOf blockHeight e))) := by
  refine ⟨?_, ?_, ?_, ?_⟩
  · cases ctxDoneDuringSched with
    | true =>
      simp only [processBlocks, if_true]
      constructor
      · intro h
        exact Except.noConfusion h
      · rintro ⟨h, _⟩
        exact Bool.noConfusion h
    | false =>
      have hpb : processBlocks false tasks =
          match firstTaskError (tasks.map fun p => blockTaskResult p.1 p.2) with
          | none => Except.ok ()
          | some e => Except.error (.wrap "error while fetching blocks" e) := rfl
      rw [hpb]
      cases hf : firstTaskError (tasks.map fun p => blockTaskResult p.1 p.2) with
      | none =>
        rw [firstTaskError_eq_none_iff] at hf
        constructor
        · intro _
          refine ⟨rfl, fun p hp => ?_⟩
          exact (blockTaskResult_ok_iff p.1 p.2).mp
            (hf _ (List.mem_map_of_mem _ hp))
        · intro _
          rfl
      | some e =>
        constructor
        · intro h
          exact Except.noConfusion h
        · rintro ⟨_, hall⟩
          have hnone : firstTaskError
              (tasks.map fun p => blockTaskResult p.1 p.2) = none := by
            rw [firstTaskError_eq_none_iff]
            intro x hx
            obtain ⟨p, hp, hpe⟩ := List.mem_map.mp hx
            rw [← hpe]
            exact (blockTaskResult_ok_iff p.1 p.2).mpr (hall p hp)
          rw [hnone] at hf
          exact Option.noConfusion hf
  · unfold groupCtxCanceled
    rw [List.any_eq_true]
    constructor
    · rintro ⟨p, hp, hb⟩
      refine ⟨p, hp, ?_⟩
      cases hr : p.2 with
      | ok u =>
        cases u
        rw [hr] at hb
        simp [blockTaskResult] at hb
      | error e => simp
    · rintro ⟨p, hp, hb⟩
      refine ⟨p, hp, ?_⟩
      cases hr : p.2 with
      | ok u => cases u; exact absurd hr hb
      | error e => simp [blockTaskResult]
  · simp [processBlocks]
  · intro pre blockHeight e post htasks hpre
    simp only [processBlocks, if_false]
    subst htasks
    rw [List.map_append, firstTaskError_append_ok]
    · rfl
    · intro x hx
      obtain ⟨p, hp, hpe⟩ := List.mem_map.mp hx
      rw [← hpe]
      exact (blockTaskResult_ok_iff p.1 p.2).mpr (hpre p hp)

/-- Witness for `processBlocks_spec`: a run that schedules fully, with one
success and one plain failure, surfaces the failure wrapped. -/
theorem processBlocks_spec_witness :
    processBlocks false [(3, .ok ()), (9, .error (.msg "boom"))] =
      .error (.wrap "error while fetching blocks" (taskErrOf 9 (.msg "boom"))) :=
  (processBlocks_spec false [(3, .ok ()), (9, .error (.msg "boom"))]).2.2.2
    [(3, .ok ())] 9 (.msg "boom") [] rfl
    (by rintro p hp; simp only [List.mem_singleton] at hp; subst hp; rfl)

/-! ## Theorems on the Gap Repairer -/

theorem processMissingLoop_all_ok (outcome : Nat → Except Err Unit)
    (maxRetries : Nat) (ids : List Nat) (h : ∀ i ∈ ids, outcome i = .ok ()) :
    processMissingLoop outcome maxRetries ids =
      (.ok (), ids.map fun i => (i, maxRetries)) := by
  induction ids with
  | nil => rfl
  | cons i rest ih =>
    have hi := h i (by simp)
    simp only [processMissingLoop, hi]
    rw [ih fun j hj => h j (by simp [hj])]
    rfl

theorem processMissingLoop_first_fail (outcome : Nat → Except Err Unit)
    (maxRetries : Nat) (good : List Nat) (bad : Nat) (rest : List Nat) (e : Err)
    (hgood : ∀ i ∈ good, outcome i = .ok ())
    (hbad : outcome bad = .error e) :
    processMissingLoop outcome maxRetries (good ++ bad :: rest) =
      (.error (.wrap ("failed to process missing block " ++ toString bad) e),
        (good ++ [bad]).map fun i => (i, maxRetries)) := by
  induction good with
  | nil => simp [processMissingLoop, hbad]
  | cons i g ih =>
    have hi := hgood i (by simp)
    have ihg := ih fun j hj => hgood j (by simp [hj])
    simp [processMissingLoop, hi, ihg]

/-- C6: the gap repairer fetches exactly the heights the sink reports
missing, sequentially in that order, each with the configured retry
budget; the first failing height short-circuits the pass, and an empty
report fetches nothing. -/
theorem processMissingBlocks_spec (missingBlockIds : Except Err (List Nat))
    (outcome : Nat → Except Err Unit) (maxRetries : Nat) :
    (missingBlockIds = .ok [] →
      processMissingBlocks missingBlockIds outcome maxRetries = (.ok (), [])) ∧
    (∀ ids, missingBlockIds = .ok ids → (∀ i ∈ ids, outcome i = .ok ()) →
      processMissingBlocks missingBlockIds outcome maxRetries =
        (.ok (), ids.map fun i => (i, maxRetries))) ∧
    (∀ good bad rest e, missingBlockIds = .ok (good ++ bad :: rest) →
      (∀ i ∈ good, outcome i = .ok ()) →
      outcome bad = .error e →
      processMissingBlocks missingBlockIds outcome maxRetries =
        (.error (.wrap ("failed to process missing block " ++ toString bad) e),
          (good ++ [bad]).map fun i => (i, maxRetries))) := by
  refine ⟨?_, ?_, ?_⟩
  · intro h
    unfold processMissingBlocks
    rw [h]
    rfl
  · intro ids h hall
    unfold processMissingBlocks
    rw [h]
    exact processMissingLoop_all_ok outcome maxRetries ids hall
  · intro good bad rest e h hgood hbad
    unfold processMissingBlocks
    rw [h]
    exact processMissingLoop_first_fail outcome maxRetries good bad rest e hgood hbad

/-- Witness for `processMissingBlocks_spec`: heights 3 and 5 reported
missing and both succeeding are fetched in order with budget 4. -/
theorem processMissingBlocks_spec_witness :
    processMissingBlocks (.ok [3, 5]) (fun _ => .ok ()) 4 =
      (.ok (), [(3, 4), (5, 4)]) :=
  (processMissingBlocks_spec (.ok [3, 5]) (fun _ => .ok ()) 4).2.1
    [3, 5] rfl (fun _ _ => rfl)

/-! ## Theorems on the Live Tailer -/

/-- C4: the tailer starts from `lastProcessed = start - 1` (here for
1 ≤ start < 2^64, where the `uint64` subtraction is the plain one); each
iteration returns cleanly when cancellation has been observed, otherwise
polls the latest height — a probe failure is returned immediately — and
drives `[lastProcessed+1, latest]` exactly when `latest > lastProcessed`:
a drive failure is returned immediately, a drive success updates
`lastProcessed` to `latest`, and when `latest ≤ lastProcessed` no drive
happens and the state is unchanged. -/
theorem extractLive_spec (blockTime start currentHeight latestHeight : Nat)
    (e : Err) (dr : Except Err Unit) (evs : List TailEvent) :
    (1 ≤ start → start < UINT64 →
      extractLiveBlocksAndTransactions blockTime start evs =
        tailerRun blockTime (start - 1) evs) ∧
    (tailerIter blockTime currentHeight .cancelBeforeIter =
      ([.observedCancel], .inl (.ok ()))) ∧
    (tailerIter blockTime currentHeight (.poll (.error e) dr) =
      ([.polled], .inl (.error (.wrap "failed to get latest block height" e)))) ∧
    (latestHeight > currentHeight → currentHeight + 1 < UINT64 →
      dr = .ok () →
      tailerIter blockTime currentHeight (.poll (.ok latestHeight) dr) =
        ([.polled, .drove (currentHeight + 1) latestHeight, .slept blockTime],
          .inr latestHeight)) ∧
    (latestHeight > currentHeight → currentHeight + 1 < UINT64 →
      dr = .error e →
      tailerIter blockTime currentHeight (.poll (.ok latestHeight) dr) =
        ([.polled, .drove (currentHeight + 1) latestHeight],
          .inl (.error (.wrap "failed to process blocks and transactions" e)))) ∧
    (¬ latestHeight > currentHeight →
      tailerIter blockTime currentHeight (.poll (.ok latestHeight) dr) =
        ([.polled, .slept blockTime], .inr currentHeight)) := by
  refine ⟨?_, rfl, rfl, ?_, ?_, ?_⟩
  · intro h1 h2
    unfold extractLiveBlocksAndTransactions
    have hU : 0 < UINT64 := by norm_num [UINT64]
    have harg : (start + (UINT64 - 1)) % UINT64 = start - 1 := by
      have h3 : start + (UINT64 - 1) = (start - 1) + UINT64 := by omega
      rw [h3, Nat.add_mod_right]
      exact Nat.mod_eq_of_lt (by omega)
    rw [harg]
  · intro hgt hlt hdr
    subst hdr
    simp only [tailerIter, hgt, if_true, Nat.mod_eq_of_lt hlt]
  · intro hgt hlt hdr
    subst hdr
    simp only [tailerIter, hgt, if_true, Nat.mod_eq_of_lt hlt]
  · intro hle
    simp only [tailerIter, hle, if_false]

/-- Witness for `extractLive_spec`: starting at height 101 with the node
at latest height 105, one successful drive of `[101, 105]` advances the
tailer to 105. -/
theorem extractLive_spec_witness :
    tailerIter 2 100 (.poll (.ok 105) (.ok ())) =
      ([.polled, .drove 101 105, .slept 2], .inr 105) :=
  (extractLive_spec 2 101 100 105 .canceled (.ok ()) []).2.2.2.1
    (by norm_num) (by norm_num [UINT64]) rfl

/-- Counterexample to C7 as stated: cancellation delivered while the
tailer sleeps between polls (modelled as the context becoming done after
the poll iteration and before the next loop entry) does not abort the
sleep — the trace records the full 2-second `time.Sleep` before the
cancellation is observed, so the tailer does wait out the whole poll
interval. -/
theorem tailer_sleep_cancel_cex :
    tailerRun 2 5 [.poll (.ok 5) (.ok ()), .cancelBeforeIter] =
      ([.polled, .slept 2, .observedCancel], some (.ok ())) ∧
    .slept 2 ∈ (tailerRun 2 5 [.poll (.ok 5) (.ok ()), .cancelBeforeIter]).1 := by
  refine ⟨rfl, ?_⟩
  decide

/-- C7 (amended): `time.Sleep` is not a cancellable suspension point:
cancellation delivered during the inter-poll sleep leaves the tailer
sleeping the full poll interval; the cancellation is observed only at the
`select` of the next iteration, whereupon the tailer returns cleanly
without initiating another poll. -/
theorem tailer_sleep_full_interval (blockTime currentHeight latestHeight : Nat)
    (dr : Except Err Unit) (hdr : latestHeight > currentHeight → dr = .ok ()) :
    tailerRun blockTime currentHeight
        [.poll (.ok latestHeight) dr, .cancelBeforeIter] =
      ((if latestHeight > currentHeight then
          [.polled, .drove ((currentHeight + 1) % UINT64) latestHeight]
        else [.polled]) ++ [.slept blockTime, .observedCancel],
        some (.ok ())) := by
  by_cases hgt : latestHeight > currentHeight
  · rw [hdr hgt]
    simp [tailerRun, tailerIter, hgt]
  · simp [tailerRun, tailerIter, hgt]

/-- Witness for `tailer_sleep_full_interval` at a tip that has not moved:
the full 2-second sleep precedes the observed cancellation. -/
theorem tailer_sleep_full_interval_witness :
    tailerRun 2 5 [.poll (.ok 5) (.ok ()), .cancelBeforeIter] =
      ([.polled] ++ [.slept 2, .observedCancel], some (.ok ())) := by
  have h := tailer_sleep_full_interval 2 5 5 (.ok ())
    (fun hc => absurd hc (by norm_num))
  simpa using h

/-- A tailer-loop input whose probe outcome is a height the node can
report: a successful `uint64` latest height. -/
def reportableEvent : TailEvent → Prop
  | .cancelBeforeIter => True
  | .poll latestResult _ => ∃ v, latestResult = .ok v ∧ v < UINT64

theorem tailerRun_stuck_at_max (blockTime : Nat) (evs : List TailEvent)
    (hev : ∀ ev ∈ evs, reportableEvent ev) :
    (∀ s t, TailTrace.drove s t ∉ (tailerRun blockTime (UINT64 - 1) evs).1) ∧
    ((tailerRun blockTime (UINT64 - 1) evs).2 = none ∨
      (tailerRun blockTime (UINT64 - 1) evs).2 = some (.ok ())) := by
  induction evs with
  | nil => exact ⟨fun s t h => List.not_mem_nil _ h, Or.inl rfl⟩
  | cons ev rest ih =>
    obtain ⟨ih1, ih2⟩ := ih fun x hx => hev x (by simp [hx])
    cases ev with
    | cancelBeforeIter =>
      refine ⟨fun s t h => ?_, Or.inr rfl⟩
      simp [tailerRun, tailerIter] at h
    | poll latestResult dr =>
      have hrep : ∃ v, latestResult = Except.ok v ∧ v < UINT64 :=
        hev (.poll latestResult dr) (by simp)
      obtain ⟨v, hv, hvlt⟩ := hrep
      subst hv
      have hle : ¬ v > UINT64 - 1 := by
        have : (0:Nat) < UINT64 := by norm_num [UINT64]
        omega
      refine ⟨fun s t h => ?_, ?_⟩
      · simp only [tailerRun, tailerIter, hle, if_false] at h
        rcases List.mem_append.mp h with h | h
        · simp at h
        · exact ih1 s t h
      · simp only [tailerRun, tailerIter, hle, if_false]
        exact ih2

/-- C9: starting the live tailer at `start = 0` makes the `uint64`
initialisation `currentHeight = start - 1` wrap to 18446744073709551615,
so no height the node can report satisfies `latest > currentHeight`: the
tailer never drives a range, and only loops (polling and sleeping) until
it is cancelled — it can end an event prefix still looping or with the
clean `nil` return, never driving. -/
theorem extractLive_start_zero (blockTime : Nat) (evs : List TailEvent)
    (hev : ∀ ev ∈ evs, reportableEvent ev) :
    ((0 + (UINT64 - 1)) % UINT64 = 18446744073709551615) ∧
    (∀ s t, TailTrace.drove s t ∉
      (extractLiveBlocksAndTransactions blockTime 0 evs).1) ∧
    ((extractLiveBlocksAndTransactions blockTime 0 evs).2 = none ∨
      (extractLiveBlocksAndTransactions blockTime 0 evs).2 = some (.ok ())) := by
  have hinit : (0 + (UINT64 - 1)) % UINT64 = UINT64 - 1 := by
    apply Nat.mod_eq_of_lt
    norm_num [UINT64]
  refine ⟨?_, ?_, ?_⟩
  · rw [hinit]; norm_num [UINT64]
  · unfold extractLiveBlocksAndTransactions
    rw [hinit]
    exact (tailerRun_stuck_at_max blockTime evs hev).1
  · unfold extractLiveBlocksAndTransactions
    rw [hinit]
    exact (tailerRun_stuck_at_max blockTime evs hev).2

/-- Witness for `extractLive_start_zero`: a node at height 100 polled
once; the tailer started at 0 never drives. -/
theorem extractLive_start_zero_witness :
    TailTrace.drove 1 100 ∉
      (extractLiveBlocksAndTransactions 2 0 [.poll (.ok 100) (.ok ())]).1 :=
  (extractLive_start_zero 2 [.poll (.ok 100) (.ok ())]
    (by
      intro ev hev
      simp only [List.mem_singleton] at hev
      subst hev
      exact ⟨100, rfl, by norm_num [UINT64]⟩)).2.1 1 100

end Yaci
